import Mathlib

/-
Verification of the fragment-canvas core: a shallow embedding of
`src/core/fragment_manager.py`, `src/ui/canvas_widget.py` and
`src/ui/selection_tool.py`, with exact rationals standing for Python
floats and explicit integer truncation wherever the source converts to
`int` (QPoint coordinates).  The `Fragment` class itself lives in
`src/core/fragment.py`, which is not among the sources; the parts of it
the claims need are modelled from the spec and marked as such.
-/

namespace V2

/-- Python `int()` applied to an exact rational: truncation toward zero
(`int(9.5) == 9`, `int(-9.5) == -9`).  Used wherever the source feeds a
float expression into an integer `QPoint` coordinate. -/
def pyTrunc (q : ℚ) : ℤ := if 0 ≤ q then ⌊q⌋ else -⌊-q⌋

/-- Python `%` on floats with a nonzero divisor: floor-based remainder,
so the result carries the divisor's sign (`-90 % 360.0 == 270.0`). -/
def pyMod (a b : ℚ) : ℚ := a - b * ⌊a / b⌋

/-- Numpy `np.clip(x, lo, hi)`: `min(max(x, lo), hi)`. -/
def npClip (x lo hi : ℚ) : ℚ := min (max x lo) hi

/-- Qt `QPoint`: a 2D point with integer coordinates. -/
structure QPoint where
  x : ℤ
  y : ℤ
deriving DecidableEq, Repr

/-- Qt `QRect`: an integer rectangle stored as its top-left corner
`(x1, y1)` and bottom-right corner `(x2, y2)`, with
`width = x2 - x1 + 1` and `height = y2 - y1 + 1`. -/
structure QRect where
  x1 : ℤ
  y1 : ℤ
  x2 : ℤ
  y2 : ℤ
deriving DecidableEq, Repr

/-- The `QRect(topLeft, bottomRight)` constructor: both corners are
included in the rectangle. -/
def QRect.fromPoints (tl br : QPoint) : QRect := ⟨tl.x, tl.y, br.x, br.y⟩

/-- The `QRect(x, y, w, h)` constructor: bottom-right corner is
`(x + w - 1, y + h - 1)`. -/
def QRect.fromXYWH (x y w h : ℤ) : QRect := ⟨x, y, x + w - 1, y + h - 1⟩

/-- Qt `QRect.isNull()`: both width and height are zero. -/
def QRect.isNull (r : QRect) : Bool := r.x2 == r.x1 - 1 && r.y2 == r.y1 - 1

/-- Qt 6 `QRect.normalized()`: on each axis, swap the two corner
coordinates when they are in decreasing order. -/
def QRect.normalized (r : QRect) : QRect :=
  let rx := if r.x2 < r.x1 then { r with x1 := r.x2, x2 := r.x1 } else r
  if rx.y2 < rx.y1 then { rx with y1 := rx.y2, y2 := rx.y1 } else rx

/-- Left end of the x-span used by `QRect::intersects` (the Qt source
handles unnormalized rectangles by picking the smaller corner when the
stored width is negative). -/
def QRect.xlo (r : QRect) : ℤ := if r.x2 < r.x1 - 1 then r.x2 else r.x1

/-- Right end of the x-span used by `QRect::intersects`. -/
def QRect.xhi (r : QRect) : ℤ := if r.x2 < r.x1 - 1 then r.x1 else r.x2

/-- Top end of the y-span used by `QRect::intersects`. -/
def QRect.ylo (r : QRect) : ℤ := if r.y2 < r.y1 - 1 then r.y2 else r.y1

/-- Bottom end of the y-span used by `QRect::intersects`. -/
def QRect.yhi (r : QRect) : ℤ := if r.y2 < r.y1 - 1 then r.y1 else r.y2

/-- Qt `QRect::intersects` (qrect.cpp): false when either rectangle is
null, otherwise the per-axis spans must overlap. -/
def QRect.intersects (a b : QRect) : Bool :=
  if a.isNull || b.isNull then false
  else if a.xlo > b.xhi || b.xlo > a.xhi then false
  else if a.ylo > b.yhi || b.ylo > a.yhi then false
  else true

/-- Containment of an integer point in a rectangle, phrased with the
same span conventions `QRect::intersects` uses; a one-pixel selection
rectangle intersects exactly the rectangles containing its point. -/
def QRect.containsPt (r : QRect) (p : QPoint) : Bool :=
  !r.isNull && decide (r.xlo ≤ p.x) && decide (p.x ≤ r.xhi)
    && decide (r.ylo ≤ p.y) && decide (p.y ≤ r.yhi)

/-- Modelled from the spec: the `Fragment` data model of
`src/core/fragment.py`, which is not among the sources (§3 of the spec):
position `(x, y)` in world units, `rotation` in degrees, two independent
flip booleans, `opacity`, `visible`, the `selected` marker, and the
derived `cache_valid` flag.  `bbox_w`/`bbox_h` stand for the width and
height that `get_bounding_box` reports for the transformed image, and
`has_image_data` for `image_data is not None`. -/
structure Fragment where
  id : String
  name : String := ""
  file_path : String := ""
  x : ℚ := 0
  y : ℚ := 0
  rotation : ℚ := 0
  flip_horizontal : Bool := false
  flip_vertical : Bool := false
  opacity : ℚ := 1
  visible : Bool := true
  selected : Bool := false
  cache_valid : Bool := false
  has_image_data : Bool := true
  bbox_w : ℚ := 0
  bbox_h : ℚ := 0
deriving DecidableEq, Repr

/-- Modelled from the spec: `Fragment.invalidate_cache`
(src/core/fragment.py is not among the sources) clears the derived
`cache_valid` flag so the transformed bitmap is recomputed. -/
def Fragment.invalidate_cache (f : Fragment) : Fragment :=
  { f with cache_valid := false }

/-- Modelled from the spec: `Fragment.reset_transform` restores position
`(0, 0)`, rotation `0` and both flips to false, and invalidates the
cache. -/
def Fragment.reset_transform (f : Fragment) : Fragment :=
  { f with x := 0, y := 0, rotation := 0, flip_horizontal := false,
           flip_vertical := false, cache_valid := false }

/-- Modelled from the spec: `Fragment.get_bounding_box` returns
`(x, y, w, h)` of the transformed image in world units. -/
def Fragment.get_bounding_box (f : Fragment) : ℚ × ℚ × ℚ × ℚ :=
  (f.x, f.y, f.bbox_w, f.bbox_h)

/-- The opacity write of `ControlPanel.on_opacity_changed`
(src/ui/control_panel.py): `self.current_fragment.opacity = opacity`.
No cache field is touched. -/
def Fragment.set_opacity (f : Fragment) (op : ℚ) : Fragment :=
  { f with opacity := op }

/-- One record of the metadata interchange format (§6): the fields
`Fragment.to_dict` serializes. -/
structure FragmentRecord where
  id : String
  name : String
  file_path : String
  x : ℚ
  y : ℚ
  rotation : ℚ
  flip_horizontal : Bool
  flip_vertical : Bool
  visible : Bool
  opacity : ℚ
deriving DecidableEq, Repr

/-- Modelled from the spec: `Fragment.from_dict` rebuilds a fragment
from a metadata record; the `selected` marker and `cache_valid` are not
part of the record and start out false. -/
def Fragment.from_dict (r : FragmentRecord) : Fragment :=
  { id := r.id, name := r.name, file_path := r.file_path, x := r.x, y := r.y,
    rotation := r.rotation, flip_horizontal := r.flip_horizontal,
    flip_vertical := r.flip_vertical, visible := r.visible, opacity := r.opacity }

/-- The serialized metadata of `FragmentManager.export_metadata`:
an ordered list of records plus the nullable selected id. -/
structure Metadata where
  fragments : List FragmentRecord
  selected_fragment_id : Option String
deriving DecidableEq, Repr

/-- State of `FragmentManager`: the insertion-ordered fragment table
(`self._fragments`, a Python dict keyed by id) and the single-selection
pointer (`self._selected_fragment_id`). -/
structure FragmentManager where
  fragments : List Fragment
  selected_fragment_id : Option String
deriving DecidableEq, Repr

/-- The shared access pattern of the transform mutators: fetch the
fragment by id and mutate it in place, silently doing nothing when the
id is absent (`self._fragments.get(fragment_id)` followed by
`if fragment:`). -/
def FragmentManager.updateById (m : FragmentManager) (fid : String)
    (g : Fragment → Fragment) : FragmentManager :=
  { m with fragments := m.fragments.map (fun f => if f.id = fid then g f else f) }

/-- `FragmentManager.set_fragment_visibility`. -/
def FragmentManager.set_fragment_visibility (m : FragmentManager)
    (fid : String) (v : Bool) : FragmentManager :=
  m.updateById fid (fun f => { f with visible := v })

/-- `FragmentManager.set_fragment_position`: absolute position write,
stored as floats, no cache field touched. -/
def FragmentManager.set_fragment_position (m : FragmentManager)
    (fid : String) (px py : ℚ) : FragmentManager :=
  m.updateById fid (fun f => { f with x := px, y := py })

/-- `FragmentManager.translate_fragment`: adds the offset to the
position, no cache field touched. -/
def FragmentManager.translate_fragment (m : FragmentManager)
    (fid : String) (dx dy : ℚ) : FragmentManager :=
  m.updateById fid (fun f => { f with x := f.x + dx, y := f.y + dy })

/-- `FragmentManager.rotate_fragment`: adds the angle, reduces modulo
360, then invalidates the cache. -/
def FragmentManager.rotate_fragment (m : FragmentManager)
    (fid : String) (angle : ℚ) : FragmentManager :=
  m.updateById fid (fun f =>
    ({ f with rotation := pyMod (f.rotation + angle) 360 }).invalidate_cache)

/-- `FragmentManager.set_fragment_rotation`: sets the angle reduced
modulo 360, then invalidates the cache. -/
def FragmentManager.set_fragment_rotation (m : FragmentManager)
    (fid : String) (angle : ℚ) : FragmentManager :=
  m.updateById fid (fun f =>
    ({ f with rotation := pyMod angle 360 }).invalidate_cache)

/-- `FragmentManager.flip_fragment`: toggles the flag of the chosen
axis, then invalidates the cache. -/
def FragmentManager.flip_fragment (m : FragmentManager)
    (fid : String) (horizontal : Bool) : FragmentManager :=
  m.updateById fid (fun f =>
    (if horizontal then { f with flip_horizontal := !f.flip_horizontal }
     else { f with flip_vertical := !f.flip_vertical }).invalidate_cache)

/-- `FragmentManager.remove_fragment`: deletes the entry and, when the
removed fragment was the selected one, points the selection at the first
remaining fragment (insertion order) or at nothing; returns whether a
fragment was removed. -/
def FragmentManager.remove_fragment (m : FragmentManager)
    (fid : String) : FragmentManager × Bool :=
  if m.fragments.any (fun f => f.id == fid) then
    let remaining := m.fragments.filter (fun f => !(f.id == fid))
    let sel :=
      if m.selected_fragment_id = some fid then remaining.head?.map Fragment.id
      else m.selected_fragment_id
    ({ fragments := remaining, selected_fragment_id := sel }, true)
  else (m, false)

/-- `FragmentManager.set_selected_fragment`: clears the `selected` flag
of the fragment the pointer currently names (when present), overwrites
the pointer with the argument, and sets the flag of the newly named
fragment when it exists in the table. -/
def FragmentManager.set_selected_fragment (m : FragmentManager)
    (fid? : Option String) : FragmentManager :=
  let cleared := m.fragments.map (fun f =>
    if m.selected_fragment_id = some f.id then { f with selected := false } else f)
  let reselected :=
    match fid? with
    | some fid => cleared.map (fun f => if f.id = fid then { f with selected := true } else f)
    | none => cleared
  { fragments := reselected, selected_fragment_id := fid? }

/-- `FragmentManager.import_metadata`: clears the table, rebuilds it
from the records, and calls `set_selected_fragment` only when the
metadata names an id that exists among the imported fragments. -/
def FragmentManager.import_metadata (m : FragmentManager)
    (meta : Metadata) : FragmentManager :=
  let m1 : FragmentManager :=
    { fragments := meta.fragments.map Fragment.from_dict,
      selected_fragment_id := m.selected_fragment_id }
  match meta.selected_fragment_id with
  | some sid =>
      if m1.fragments.any (fun f => f.id == sid) then m1.set_selected_fragment (some sid)
      else m1
  | none => m1

/-- The flag-pointer sync invariant of §3: a fragment's `selected`
marker is true exactly when the store's single-selection pointer holds
its id. -/
def selectionSync (m : FragmentManager) : Prop :=
  ∀ f ∈ m.fragments, (f.selected = true ↔ m.selected_fragment_id = some f.id)

instance (m : FragmentManager) : Decidable (selectionSync m) := by
  unfold selectionSync
  infer_instance

/-- Viewport state of `CanvasWidget`: zoom, pan and the configured zoom
bounds. -/
structure Canvas where
  zoom : ℚ
  pan_x : ℚ
  pan_y : ℚ
  min_zoom : ℚ
  max_zoom : ℚ
deriving DecidableEq, Repr

/-- The viewport fields `CanvasWidget.__init__` sets: zoom 1, pan
`(0, 0)`, `min_zoom = 0.01`, `max_zoom = 50`. -/
def Canvas.init : Canvas :=
  { zoom := 1, pan_x := 0, pan_y := 0, min_zoom := 1/100, max_zoom := 50 }

/-- `CanvasWidget.screen_to_world`: `world = screen / zoom - pan`, each
coordinate truncated into the integer `QPoint` the method returns. -/
def Canvas.screen_to_world (c : Canvas) (p : QPoint) : QPoint :=
  ⟨pyTrunc ((p.x : ℚ) / c.zoom - c.pan_x), pyTrunc ((p.y : ℚ) / c.zoom - c.pan_y)⟩

/-- `CanvasWidget.world_to_screen`: `screen = (world + pan) * zoom`,
each coordinate truncated into the integer `QPoint` the method
returns. -/
def Canvas.world_to_screen (c : Canvas) (p : QPoint) : QPoint :=
  ⟨pyTrunc (((p.x : ℚ) + c.pan_x) * c.zoom), pyTrunc (((p.y : ℚ) + c.pan_y) * c.zoom)⟩

/-- The screen-to-world formula before the integer truncation that
`QPoint` imposes, as an exact map on rational points. -/
def Canvas.screen_to_world_exact (c : Canvas) (p : ℚ × ℚ) : ℚ × ℚ :=
  (p.1 / c.zoom - c.pan_x, p.2 / c.zoom - c.pan_y)

/-- The world-to-screen formula before the integer truncation that
`QPoint` imposes, as an exact map on rational points. -/
def Canvas.world_to_screen_exact (c : Canvas) (p : ℚ × ℚ) : ℚ × ℚ :=
  ((p.1 + c.pan_x) * c.zoom, (p.2 + c.pan_y) * c.zoom)

/-- `CanvasWidget.wheelEvent`: factor 1.2 on wheel-up and 1/1.2 on
wheel-down, clamped with `np.clip`; when the clamped zoom differs from
the current one, the zoom is written and the pan is shifted by
(world-before minus world-after) of the cursor position. -/
def Canvas.wheelEvent (c : Canvas) (pos : QPoint) (up : Bool) : Canvas :=
  let before := c.screen_to_world pos
  let factor : ℚ := if up then 6/5 else 5/6
  let new_zoom := npClip (c.zoom * factor) c.min_zoom c.max_zoom
  if new_zoom ≠ c.zoom then
    let c1 := { c with zoom := new_zoom }
    let after := c1.screen_to_world pos
    { c1 with pan_x := c1.pan_x + ((before.x - after.x : ℤ) : ℚ),
              pan_y := c1.pan_y + ((before.y - after.y : ℤ) : ℚ) }
  else c

/-- `CanvasWidget.zoom_to_100`: zoom 1, pan `(0, 0)`. -/
def Canvas.zoom_to_100 (c : Canvas) : Canvas :=
  { c with zoom := 1, pan_x := 0, pan_y := 0 }

/-- `CanvasWidget.zoom_to_fit`: over the visible fragments with image
data, accumulate the union of the bounding boxes, bail out on
non-positive content extent, and otherwise write
`zoom = min(widget_w / content_w, widget_h / content_h) * 0.9` (with no
clamping) and center the content. -/
def Canvas.zoom_to_fit (c : Canvas) (fragments : List Fragment)
    (widget_w widget_h : ℚ) : Canvas :=
  let vis := fragments.filter (fun f => f.visible && f.has_image_data)
  match vis with
  | [] => c
  | v :: vs =>
    let min_x := vs.foldl (fun a f => min a f.get_bounding_box.1) v.get_bounding_box.1
    let min_y := vs.foldl (fun a f => min a f.get_bounding_box.2.1) v.get_bounding_box.2.1
    let max_x := vs.foldl (fun a f => max a (f.get_bounding_box.1 + f.get_bounding_box.2.2.1))
      (v.get_bounding_box.1 + v.get_bounding_box.2.2.1)
    let max_y := vs.foldl (fun a f => max a (f.get_bounding_box.2.1 + f.get_bounding_box.2.2.2))
      (v.get_bounding_box.2.1 + v.get_bounding_box.2.2.2)
    let content_width := max_x - min_x
    let content_height := max_y - min_y
    if content_width ≤ 0 ∨ content_height ≤ 0 then c
    else
      let z := min (widget_w / content_width) (widget_h / content_height) * (9/10)
      { c with zoom := z,
               pan_x := widget_w / 2 / z - (min_x + max_x) / 2,
               pan_y := widget_h / 2 / z - (min_y + max_y) / 2 }

/-- State of `SelectionTool`: armed flag, drag-in-progress flag, the two
rectangle corners in world coordinates, and the ids produced by the last
completed rectangle drag. -/
structure SelectionTool where
  is_active : Bool := false
  is_selecting : Bool := false
  selection_start : QPoint := ⟨0, 0⟩
  selection_end : QPoint := ⟨0, 0⟩
  selected_fragment_ids : List String := []
deriving DecidableEq, Repr

/-- The integer rectangle
`QRect(int(bbox[0]), int(bbox[1]), int(bbox[2]), int(bbox[3]))` built
from a fragment's bounding box in `SelectionTool.finish_selection`. -/
def fragmentQRect (f : Fragment) : QRect :=
  QRect.fromXYWH (pyTrunc f.get_bounding_box.1) (pyTrunc f.get_bounding_box.2.1)
    (pyTrunc f.get_bounding_box.2.2.1) (pyTrunc f.get_bounding_box.2.2.2)

/-- `SelectionTool.start_selection`: arms the drag and anchors both
corners at the start point. -/
def SelectionTool.start_selection (t : SelectionTool) (p : QPoint) : SelectionTool :=
  { t with is_selecting := true, selection_start := p, selection_end := p }

/-- `SelectionTool.update_selection`: moves the live corner while a drag
is in progress. -/
def SelectionTool.update_selection (t : SelectionTool) (p : QPoint) : SelectionTool :=
  if t.is_selecting then { t with selection_end := p } else t

/-- `SelectionTool.finish_selection`: when a drag is in progress,
normalize the corner-to-corner rectangle and collect the id of every
visible fragment whose integer bounding rectangle intersects it,
replacing the previous group selection; returns the new id set. -/
def SelectionTool.finish_selection (t : SelectionTool)
    (fragments : List Fragment) : SelectionTool × List String :=
  if !t.is_selecting then (t, t.selected_fragment_ids)
  else
    let selection_rect := (QRect.fromPoints t.selection_start t.selection_end).normalized
    let ids := (fragments.filter
      (fun f => f.visible && selection_rect.intersects (fragmentQRect f))).map Fragment.id
    ({ t with is_selecting := false, selected_fragment_ids := ids }, ids)

/-- The group-drag branch of `CanvasWidget.mousePressEvent`: for every
member id whose fragment exists, capture
`QPoint(int(world.x - frag.x), int(world.y - frag.y))`. -/
def groupPressOffsets (group : List String) (fragments : List Fragment)
    (world : QPoint) : List (String × QPoint) :=
  group.filterMap (fun fid =>
    (fragments.find? (fun f => f.id == fid)).map
      (fun f => (fid, (⟨pyTrunc ((world.x : ℚ) - f.x), pyTrunc ((world.y : ℚ) - f.y)⟩ : QPoint))))

/-- The group-drag branch of `CanvasWidget.mouseMoveEvent`: for every
member id with a captured offset, emit
`fragment_moved(id, world.x - off.x, world.y - off.y)`, the new position
the collaborating window applies back into the store. -/
def groupMovePositions (group : List String) (offsets : List (String × QPoint))
    (world : QPoint) : List (String × ℚ × ℚ) :=
  group.filterMap (fun fid =>
    (List.lookup fid offsets).map
      (fun off => (fid, ((world.x - off.x : ℤ) : ℚ), ((world.y - off.y : ℤ) : ℚ))))

/-- Python floor-mod rewritten through the fractional-part function. -/
theorem pyMod_eq_mul_fract (a b : ℚ) (hb : b ≠ 0) :
    pyMod a b = b * Int.fract (a / b) := by
  unfold pyMod Int.fract
  field_simp

/-- Python floor-mod with a positive divisor is nonnegative. -/
theorem pyMod_nonneg (a b : ℚ) (hb : 0 < b) : 0 ≤ pyMod a b := by
  rw [pyMod_eq_mul_fract a b hb.ne']
  exact mul_nonneg hb.le (Int.fract_nonneg _)

/-- Python floor-mod with a positive divisor stays below the divisor. -/
theorem pyMod_lt (a b : ℚ) (hb : 0 < b) : pyMod a b < b := by
  rw [pyMod_eq_mul_fract a b hb.ne']
  calc b * Int.fract (a / b) < b * 1 :=
        mul_lt_mul_of_pos_left (Int.fract_lt_one _) hb
    _ = b := mul_one b

/-- Truncation toward zero is the identity on integer rationals. -/
theorem pyTrunc_intCast (n : ℤ) : pyTrunc (n : ℚ) = n := by
  unfold pyTrunc
  split_ifs with h
  · exact_mod_cast Int.floor_intCast n
  · rw [← Int.cast_neg, Int.floor_intCast, neg_neg]

/-- Membership in the fragment list after an in-place mutation comes
from membership before it. -/
theorem mem_updateById {m : FragmentManager} {fid : String}
    {g : Fragment → Fragment} {f' : Fragment}
    (h : f' ∈ (m.updateById fid g).fragments) :
    ∃ f ∈ m.fragments, (if f.id = fid then g f else f) = f' := by
  unfold FragmentManager.updateById at h
  exact List.mem_map.mp h

/-- A mutation that keeps `cache_valid` keeps the whole list of
`cache_valid` flags. -/
theorem updateById_cache_valid_preserved (m : FragmentManager) (fid : String)
    (g : Fragment → Fragment) (hg : ∀ f, (g f).cache_valid = f.cache_valid) :
    (m.updateById fid g).fragments.map Fragment.cache_valid
      = m.fragments.map Fragment.cache_valid := by
  unfold FragmentManager.updateById
  rw [List.map_map]
  apply List.map_congr_left
  intro f _
  by_cases h : f.id = fid <;> simp [h, hg]

/-- A fragment of the mutated list that carries the targeted id is the
image of a stored fragment under the mutation. -/
theorem mem_updateById_target {m : FragmentManager} {fid : String}
    {g : Fragment → Fragment} {f' : Fragment}
    (h : f' ∈ (m.updateById fid g).fragments) (hid : f'.id = fid) :
    ∃ f ∈ m.fragments, f' = g f := by
  obtain ⟨f, hf, hval⟩ := mem_updateById h
  by_cases hc : f.id = fid
  · exact ⟨f, hf, by rw [← hval, if_pos hc]⟩
  · rw [if_neg hc] at hval
    exact absurd (hval ▸ hid) hc

/-- Claim C1: for every fragment in the store, the position writes
(`set_fragment_position`, `translate_fragment`), the visibility write
and the opacity write leave every fragment's `cache_valid` flag exactly
as it was (so they never invalidate the pixel transform cache), while
`set_fragment_rotation`, `rotate_fragment` and `flip_fragment` always
leave the targeted fragment with `cache_valid = false`. -/
theorem claim1_cache_policy :
    (∀ (m : FragmentManager) (fid : String) (px py : ℚ),
      (m.set_fragment_position fid px py).fragments.map Fragment.cache_valid
        = m.fragments.map Fragment.cache_valid)
  ∧ (∀ (m : FragmentManager) (fid : String) (dx dy : ℚ),
      (m.translate_fragment fid dx dy).fragments.map Fragment.cache_valid
        = m.fragments.map Fragment.cache_valid)
  ∧ (∀ (m : FragmentManager) (fid : String) (v : Bool),
      (m.set_fragment_visibility fid v).fragments.map Fragment.cache_valid
        = m.fragments.map Fragment.cache_valid)
  ∧ (∀ (f : Fragment) (op : ℚ), (f.set_opacity op).cache_valid = f.cache_valid)
  ∧ (∀ (m : FragmentManager) (fid : String) (angle : ℚ) (f' : Fragment),
      f' ∈ (m.set_fragment_rotation fid angle).fragments → f'.id = fid →
      f'.cache_valid = false)
  ∧ (∀ (m : FragmentManager) (fid : String) (angle : ℚ) (f' : Fragment),
      f' ∈ (m.rotate_fragment fid angle).fragments → f'.id = fid →
      f'.cache_valid = false)
  ∧ (∀ (m : FragmentManager) (fid : String) (horizontal : Bool) (f' : Fragment),
      f' ∈ (m.flip_fragment fid horizontal).fragments → f'.id = fid →
      f'.cache_valid = false) := by
  refine ⟨?_, ?_, ?_, ?_, ?_, ?_, ?_⟩
  · intro m fid px py
    exact updateById_cache_valid_preserved m fid _ (fun f => rfl)
  · intro m fid dx dy
    exact updateById_cache_valid_preserved m fid _ (fun f => rfl)
  · intro m fid v
    exact updateById_cache_valid_preserved m fid _ (fun f => rfl)
  · intro f op
    rfl
  · intro m fid angle f' hmem hid
    obtain ⟨f, _, hval⟩ := mem_updateById_target hmem hid
    rw [hval]
    rfl
  · intro m fid angle f' hmem hid
    obtain ⟨f, _, hval⟩ := mem_updateById_target hmem hid
    rw [hval]
    rfl
  · intro m fid horizontal f' hmem hid
    obtain ⟨f, _, hval⟩ := mem_updateById_target hmem hid
    rw [hval]
    by_cases h : horizontal <;> simp [h, Fragment.invalidate_cache]

/-- Witness for claim C1: rotating the single stored fragment by 90
degrees leaves it with `cache_valid = false`, exercising the
rotation conjunct at a concrete input. -/
theorem claim1_cache_policy_witness :
    (({ id := "a", rotation := 90, cache_valid := false } : Fragment)
        ∈ (({ fragments := [{ id := "a", cache_valid := true }],
              selected_fragment_id := none } : FragmentManager).set_fragment_rotation
            "a" 90).fragments)
  ∧ ({ id := "a", rotation := 90, cache_valid := false } : Fragment).cache_valid = false := by
  have hmem : ({ id := "a", rotation := 90, cache_valid := false } : Fragment)
      ∈ (({ fragments := [{ id := "a", cache_valid := true }],
            selected_fragment_id := none } : FragmentManager).set_fragment_rotation
          "a" 90).fragments := by
    simp only [FragmentManager.set_fragment_rotation, FragmentManager.updateById,
      Fragment.invalidate_cache, List.map_cons, List.map_nil, if_pos rfl]
    have : pyMod 90 360 = (90 : ℚ) := by norm_num [pyMod]
    simp [this]
  exact ⟨hmem, claim1_cache_policy.2.2.2.2.1 _ "a" 90 _ hmem rfl⟩

/-- Claim C4: for every fragment present in the store and every input
angle (negative or above 360 included), `set_fragment_rotation` leaves
the targeted fragment's rotation in `[0, 360)`, and `rotate_fragment`
likewise normalizes the resulting rotation into `[0, 360)`. -/
theorem claim4_rotation_range :
    (∀ (m : FragmentManager) (fid : String) (angle : ℚ) (f' : Fragment),
      f' ∈ (m.set_fragment_rotation fid angle).fragments → f'.id = fid →
      0 ≤ f'.rotation ∧ f'.rotation < 360)
  ∧ (∀ (m : FragmentManager) (fid : String) (angle : ℚ) (f' : Fragment),
      f' ∈ (m.rotate_fragment fid angle).fragments → f'.id = fid →
      0 ≤ f'.rotation ∧ f'.rotation < 360) := by
  constructor
  · intro m fid angle f' hmem hid
    obtain ⟨f, _, hval⟩ := mem_updateById_target hmem hid
    rw [hval]
    exact ⟨pyMod_nonneg _ _ (by norm_num), pyMod_lt _ _ (by norm_num)⟩
  · intro m fid angle f' hmem hid
    obtain ⟨f, _, hval⟩ := mem_updateById_target hmem hid
    rw [hval]
    exact ⟨pyMod_nonneg _ _ (by norm_num), pyMod_lt _ _ (by norm_num)⟩

/-- Witness for claim C4: `set_rotation(-90)` on a stored fragment
produces rotation 270, which the theorem places in `[0, 360)`. -/
theorem claim4_rotation_range_witness :
    (({ id := "a", rotation := 270, cache_valid := false } : Fragment)
        ∈ (({ fragments := [{ id := "a" }], selected_fragment_id := none }
            : FragmentManager).set_fragment_rotation "a" (-90)).fragments)
  ∧ 0 ≤ ({ id := "a", rotation := 270, cache_valid := false } : Fragment).rotation
  ∧ ({ id := "a", rotation := 270, cache_valid := false } : Fragment).rotation < 360 := by
  have hmem : ({ id := "a", rotation := 270, cache_valid := false } : Fragment)
      ∈ (({ fragments := [{ id := "a" }], selected_fragment_id := none }
          : FragmentManager).set_fragment_rotation "a" (-90)).fragments := by
    simp only [FragmentManager.set_fragment_rotation, FragmentManager.updateById,
      Fragment.invalidate_cache, List.map_cons, List.map_nil, if_pos rfl]
    have : pyMod (-90) 360 = (270 : ℚ) := by norm_num [pyMod]
    simp [this]
  have h := claim4_rotation_range.1 _ "a" (-90) _ hmem rfl
  exact ⟨hmem, h.1, h.2⟩

/-- Clamping with `np.clip` lands in `[lo, hi]` whenever `lo ≤ hi`. -/
theorem npClip_mem (x lo hi : ℚ) (h : lo ≤ hi) :
    lo ≤ npClip x lo hi ∧ npClip x lo hi ≤ hi := by
  unfold npClip
  exact ⟨le_min (le_max_right x lo) h, min_le_right _ _⟩

/-- Claim C2: at the freshly initialized viewport (zoom 1, pan (0, 0),
zoom bounds [0.01, 50]), a wheel-up at screen point (120, 0) produces
the clamped zoom 6/5, which differs from the old zoom and sits strictly
inside the bounds, yet `screen_to_world` of the cursor point moves from
(120, 0) to (80, 0): the handler adds `before - after` to the pan, which
for the `screen = (world + pan) * zoom` convention of this widget is the
wrong sign (keeping the point fixed needs `after - before`), so the
world point under the cursor does not stay under the cursor. -/
theorem claim2_wheel_anchor_bug :
    Canvas.init.screen_to_world ⟨120, 0⟩ = ⟨120, 0⟩
  ∧ (Canvas.init.wheelEvent ⟨120, 0⟩ true).zoom = 6/5
  ∧ (Canvas.init.wheelEvent ⟨120, 0⟩ true).screen_to_world ⟨120, 0⟩ = ⟨80, 0⟩ := by
  refine ⟨?_, ?_, ?_⟩
  · norm_num [Canvas.init, Canvas.screen_to_world, pyTrunc, QPoint.mk.injEq]
  · norm_num [Canvas.wheelEvent, Canvas.init, Canvas.screen_to_world, pyTrunc,
      npClip, min_def, max_def]
  · norm_num [Canvas.wheelEvent, Canvas.init, Canvas.screen_to_world, pyTrunc,
      npClip, min_def, max_def, QPoint.mk.injEq]

/-- Counterexample to claim C3: with zoom 1/2 (inside the configured
bounds) and pan (0, 0), the integer-truncating maps of the widget send
the world point (1, 1) to screen (0, 0) and back to world (0, 0), so
`screen_to_world (world_to_screen p) = p` fails. -/
theorem claim3_roundtrip_counterexample :
    (({ zoom := 1/2, pan_x := 0, pan_y := 0, min_zoom := 1/100, max_zoom := 50 }
        : Canvas).screen_to_world
      (({ zoom := 1/2, pan_x := 0, pan_y := 0, min_zoom := 1/100, max_zoom := 50 }
        : Canvas).world_to_screen ⟨1, 1⟩)) ≠ (⟨1, 1⟩ : QPoint) := by
  norm_num [Canvas.screen_to_world, Canvas.world_to_screen, pyTrunc, QPoint.mk.injEq]

/-- Claim C3, amended: `world_to_screen` computes
`screen = (world + pan) * zoom` and `screen_to_world` computes
`world = screen / zoom - pan`, each truncated to the integer coordinates
of the returned `QPoint`; the untruncated maps are mutually inverse for
every rational world point whenever the zoom is nonzero (the truncated
implementations are not, by the counterexample). -/
theorem claim3_exact_inverse (c : Canvas) (hz : c.zoom ≠ 0) :
    (∀ w : ℚ × ℚ, c.screen_to_world_exact (c.world_to_screen_exact w) = w)
  ∧ (∀ p : QPoint,
      c.world_to_screen p
        = ⟨pyTrunc (c.world_to_screen_exact ((p.x : ℚ), (p.y : ℚ))).1,
           pyTrunc (c.world_to_screen_exact ((p.x : ℚ), (p.y : ℚ))).2⟩
    ∧ c.screen_to_world p
        = ⟨pyTrunc (c.screen_to_world_exact ((p.x : ℚ), (p.y : ℚ))).1,
           pyTrunc (c.screen_to_world_exact ((p.x : ℚ), (p.y : ℚ))).2⟩) := by
  constructor
  · intro w
    unfold Canvas.screen_to_world_exact Canvas.world_to_screen_exact
    rw [Prod.ext_iff]
    constructor <;> (dsimp only; field_simp)
  · intro p
    exact ⟨rfl, rfl⟩

/-- Witness for claim C3 (amended): the exact round-trip restores the
world point (7, -3) at the initial viewport. -/
theorem claim3_exact_inverse_witness :
    Canvas.init.screen_to_world_exact (Canvas.init.world_to_screen_exact (7, -3))
      = ((7 : ℚ), (-3 : ℚ)) :=
  (claim3_exact_inverse Canvas.init (by norm_num [Canvas.init])).1 (7, -3)

/-- Counterexample to claim C8: `zoom_to_fit` on a single visible 1-by-1
fragment in the 400-by-300 minimum-size widget writes zoom
`min(400/1, 300/1) * 0.9 = 270`, far above the configured
`max_zoom = 50` — the fit-to-content path performs no clamping. -/
theorem claim8_counterexample :
    (Canvas.init.zoom_to_fit [{ id := "a", bbox_w := 1, bbox_h := 1 }] 400 300).zoom = 270
  ∧ Canvas.init.max_zoom
      < (Canvas.init.zoom_to_fit [{ id := "a", bbox_w := 1, bbox_h := 1 }] 400 300).zoom := by
  constructor <;>
    norm_num [Canvas.zoom_to_fit, Canvas.init, Fragment.get_bounding_box,
      List.filter, min_def, max_def]

/-- Claim C8, amended: the wheel-zoom write is clamped — whenever the
wheel handler changes the zoom, the new zoom lies in
`[min_zoom, max_zoom]` — and the reset write (zoom 1) lies in the bounds
as configured; the fit-to-content and zoom-to-selection paths write
`min(widget_w/content_w, widget_h/content_h) * 0.9` without clamping and
can leave the range (see the counterexample). -/
theorem claim8_clamped_amended (c : Canvas) (pos : QPoint) (up : Bool)
    (hlo : c.min_zoom ≤ c.max_zoom) (h1 : c.min_zoom ≤ 1) (h2 : 1 ≤ c.max_zoom) :
    ((c.wheelEvent pos up).zoom ≠ c.zoom →
      c.min_zoom ≤ (c.wheelEvent pos up).zoom ∧ (c.wheelEvent pos up).zoom ≤ c.max_zoom)
  ∧ (c.min_zoom ≤ c.zoom_to_100.zoom ∧ c.zoom_to_100.zoom ≤ c.max_zoom) := by
  constructor
  · intro hne
    by_cases h : npClip (c.zoom * (if up then (6 : ℚ)/5 else 5/6)) c.min_zoom c.max_zoom
        ≠ c.zoom
    · have hzv : (c.wheelEvent pos up).zoom
          = npClip (c.zoom * (if up then (6 : ℚ)/5 else 5/6)) c.min_zoom c.max_zoom := by
        simp only [Canvas.wheelEvent, if_pos h]
      rw [hzv]
      exact npClip_mem _ _ _ hlo
    · exfalso
      apply hne
      simp only [Canvas.wheelEvent, if_neg h]
  · exact ⟨h1, h2⟩

/-- Witness for claim C8 (amended): a wheel-up from the initial viewport
changes the zoom (to 6/5) and stays inside [0.01, 50]. -/
theorem claim8_clamped_amended_witness :
    Canvas.init.min_zoom ≤ (Canvas.init.wheelEvent ⟨0, 0⟩ true).zoom
  ∧ (Canvas.init.wheelEvent ⟨0, 0⟩ true).zoom ≤ Canvas.init.max_zoom :=
  (claim8_clamped_amended Canvas.init ⟨0, 0⟩ true (by norm_num [Canvas.init])
      (by norm_num [Canvas.init]) (by norm_num [Canvas.init])).1
    (by norm_num [Canvas.wheelEvent, Canvas.init, Canvas.screen_to_world, pyTrunc,
      npClip, min_def, max_def])

/-- Counterexample to claim C7: a store holding fragments a (selected,
flag set) and b satisfies the flag-pointer sync invariant, but removing
a promotes the selection pointer to b while leaving b's `selected` flag
false, so the invariant does not survive the remove. -/
theorem claim7_counterexample :
    selectionSync ({ fragments := [{ id := "a", selected := true }, { id := "b" }],
                     selected_fragment_id := some "a" } : FragmentManager)
  ∧ ¬ selectionSync ((({ fragments := [{ id := "a", selected := true }, { id := "b" }],
                         selected_fragment_id := some "a" } : FragmentManager).remove_fragment
        "a").1) := by
  constructor
  · decide
  · decide

/-- Claim C7, amended: the flag-pointer sync invariant is preserved by
`set_selected_fragment` (for any argument); `remove_fragment` of the
primary-selected fragment updates only the pointer — promoting the first
remaining fragment's id, or none — and sets no fragment's `selected`
flag, so afterwards every remaining fragment's flag is false even though
the pointer names the promoted fragment (the invariant survives the
remove only when no fragment remains). -/
theorem claim7_sync_amended :
    (∀ (m : FragmentManager) (fid? : Option String),
      selectionSync m → selectionSync (m.set_selected_fragment fid?))
  ∧ (∀ (m : FragmentManager) (fid : String),
      selectionSync m → m.selected_fragment_id = some fid →
      (∃ f ∈ m.fragments, f.id = fid) →
      (∀ f' ∈ ((m.remove_fragment fid).1).fragments, f'.selected = false)
      ∧ ((m.remove_fragment fid).1).selected_fragment_id
          = ((m.remove_fragment fid).1).fragments.head?.map Fragment.id) := by
  constructor
  · intro m fid? hsync
    cases fid? with
    | none =>
      intro f' hf'
      simp only [FragmentManager.set_selected_fragment] at hf' ⊢
      obtain ⟨f, hf, hval⟩ := List.mem_map.mp hf'
      constructor
      · intro hsel
        exfalso
        by_cases hc : m.selected_fragment_id = some f.id
        · rw [← hval, if_pos hc] at hsel
          exact Bool.false_ne_true hsel
        · rw [← hval, if_neg hc] at hsel
          exact hc ((hsync f hf).mp hsel)
      · intro hcontra
        exact absurd hcontra (by simp)
    | some fid =>
      intro f' hf'
      simp only [FragmentManager.set_selected_fragment] at hf' ⊢
      rw [List.map_map] at hf'
      obtain ⟨f, hf, hval⟩ := List.mem_map.mp hf'
      simp only [Function.comp] at hval
      by_cases hteq : f.id = fid
      · have hval2 : f' = { (if m.selected_fragment_id = some f.id then
            { f with selected := false } else f) with selected := true } := by
          rw [← hval, if_pos (by
            by_cases hc : m.selected_fragment_id = some f.id
            · rw [if_pos hc]; exact hteq
            · rw [if_neg hc]; exact hteq)]
        have hid : f'.id = f.id := by
          rw [hval2]; by_cases hc : m.selected_fragment_id = some f.id <;> simp [hc]
        have hsel : f'.selected = true := by
          rw [hval2]
        simp [hsel, hid, hteq]
      · have hval2 : f' = (if m.selected_fragment_id = some f.id then
            { f with selected := false } else f) := by
          rw [← hval, if_neg (by
            by_cases hc : m.selected_fragment_id = some f.id
            · rw [if_pos hc]; exact hteq
            · rw [if_neg hc]; exact hteq)]
        have hid : f'.id = f.id := by
          rw [hval2]; by_cases hc : m.selected_fragment_id = some f.id <;> simp [hc]
        have hsel : f'.selected = false := by
          by_cases hc : m.selected_fragment_id = some f.id
          · rw [hval2, if_pos hc]
          · rw [hval2, if_neg hc]
            rcases hb : f.selected with _ | _
            · rfl
            · exact absurd ((hsync f hf).mp hb) hc
        constructor
        · intro hcontra
          rw [hsel] at hcontra
          exact absurd hcontra Bool.false_ne_true
        · intro hcontra
          rw [hid] at hcontra
          exact absurd (Option.some.inj hcontra).symm hteq
  · intro m fid hsync hsel hex
    have hany : (m.fragments.any (fun f => f.id == fid)) = true := by
      obtain ⟨f, hf, hfid⟩ := hex
      exact List.any_eq_true.mpr ⟨f, hf, by simp [hfid]⟩
    constructor
    · intro f' hf'
      simp only [FragmentManager.remove_fragment, hany, if_true] at hf'
      have hmf := List.mem_filter.mp hf'
      have hne : f'.id ≠ fid := by simpa using hmf.2
      rcases hb : f'.selected with _ | _
      · rfl
      · have := (hsync f' hmf.1).mp hb
        rw [hsel] at this
        exact absurd (Option.some.inj this).symm hne
    · simp only [FragmentManager.remove_fragment, hany, if_true, hsel, if_pos rfl]

/-- Witness for claim C7 (amended): removing the selected fragment a
from the two-fragment store leaves the remaining fragment b with a false
flag while the pointer is promoted to b's id. -/
theorem claim7_sync_amended_witness :
    (∀ f' ∈ ((({ fragments := [{ id := "a", selected := true }, { id := "b" }],
                 selected_fragment_id := some "a" } : FragmentManager).remove_fragment
        "a").1).fragments, f'.selected = false)
  ∧ ((({ fragments := [{ id := "a", selected := true }, { id := "b" }],
         selected_fragment_id := some "a" } : FragmentManager).remove_fragment
        "a").1).selected_fragment_id
      = ((({ fragments := [{ id := "a", selected := true }, { id := "b" }],
             selected_fragment_id := some "a" } : FragmentManager).remove_fragment
        "a").1).fragments.head?.map Fragment.id :=
  claim7_sync_amended.2
    ({ fragments := [{ id := "a", selected := true }, { id := "b" }],
       selected_fragment_id := some "a" } : FragmentManager) "a"
    (by decide) rfl ⟨{ id := "a", selected := true }, by decide, rfl⟩

/-- Counterexample to claim C9: selecting the unknown id "zzz" in a
store whose fragment a is selected is not a no-op — the pointer is
overwritten with the unknown id and a's flag is cleared. -/
theorem claim9_counterexample :
    ((({ fragments := [{ id := "a", selected := true }], selected_fragment_id := some "a" }
        : FragmentManager).set_selected_fragment (some "zzz")).selected_fragment_id
      ≠ ({ fragments := [{ id := "a", selected := true }], selected_fragment_id := some "a" }
        : FragmentManager).selected_fragment_id)
  ∧ (∀ f' ∈ ((({ fragments := [{ id := "a", selected := true }],
                 selected_fragment_id := some "a" } : FragmentManager).set_selected_fragment
        (some "zzz")).fragments), f'.selected = false) := by
  constructor
  · decide
  · decide

/-- Claim C9, amended: `select` with a known id (or none) clears the
previous selection's flag and sets the new one's; with an unknown id it
raises nothing but is not a no-op: it still clears the previous
selection's flag and overwrites the selection pointer with the unknown
id, while no fragment's flag becomes set. -/
theorem claim9_amended (m : FragmentManager) (z : String)
    (hz : ∀ f ∈ m.fragments, f.id ≠ z) :
    (m.set_selected_fragment (some z)).selected_fragment_id = some z
  ∧ (m.set_selected_fragment (some z)).fragments
      = m.fragments.map (fun f =>
          if m.selected_fragment_id = some f.id then { f with selected := false } else f) := by
  constructor
  · rfl
  · simp only [FragmentManager.set_selected_fragment]
    rw [List.map_map]
    apply List.map_congr_left
    intro f hf
    simp only [Function.comp]
    by_cases hc : m.selected_fragment_id = some f.id
    · rw [if_pos hc, if_neg (show ¬(({ f with selected := false } : Fragment).id = z)
        from hz f hf)]
    · rw [if_neg hc, if_neg (hz f hf)]

/-- Witness for claim C9 (amended): selecting "zzz" in the one-fragment
store points the selection at "zzz" and clears a's flag. -/
theorem claim9_amended_witness :
    ((({ fragments := [{ id := "a", selected := true }], selected_fragment_id := some "a" }
        : FragmentManager).set_selected_fragment (some "zzz")).selected_fragment_id
      = some "zzz")
  ∧ ((({ fragments := [{ id := "a", selected := true }], selected_fragment_id := some "a" }
        : FragmentManager).set_selected_fragment (some "zzz")).fragments
      = ({ fragments := [{ id := "a", selected := true }], selected_fragment_id := some "a" }
        : FragmentManager).fragments.map (fun f =>
          if (({ fragments := [{ id := "a", selected := true }],
                 selected_fragment_id := some "a" } : FragmentManager).selected_fragment_id
              = some f.id) then { f with selected := false } else f)) :=
  claim9_amended
    ({ fragments := [{ id := "a", selected := true }], selected_fragment_id := some "a" }
      : FragmentManager) "zzz" (by decide)

/-- Counterexample to claim C10: importing metadata whose
`selected_fragment_id` ("zzz") names none of the imported records into a
store whose pointer was "a" leaves the pointer at the stale value "a"
rather than clearing it to none. -/
theorem claim10_counterexample :
    ((({ fragments := [{ id := "a", selected := true }], selected_fragment_id := some "a" }
        : FragmentManager).import_metadata
        { fragments := [{ id := "b", name := "", file_path := "", x := 0, y := 0,
                          rotation := 0, flip_horizontal := false, flip_vertical := false,
                          visible := true, opacity := 1 }],
          selected_fragment_id := some "zzz" }).selected_fragment_id = some "a")
  ∧ some "a" ≠ (none : Option String) := by
  constructor
  · decide
  · decide

/-- Claim C10, amended: import replaces the entire fragment set with the
records of the metadata; when the metadata's `selected_fragment_id` is
null or names no imported fragment, the select call is skipped, so the
selection pointer keeps its pre-import value (possibly a stale id naming
no imported fragment) instead of being cleared. -/
theorem claim10_amended (m : FragmentManager) (meta : Metadata)
    (hunk : ∀ sid, meta.selected_fragment_id = some sid → ∀ r ∈ meta.fragments, r.id ≠ sid) :
    (m.import_metadata meta).fragments = meta.fragments.map Fragment.from_dict
  ∧ (m.import_metadata meta).selected_fragment_id = m.selected_fragment_id := by
  cases hm : meta.selected_fragment_id with
  | none =>
    constructor <;> simp [FragmentManager.import_metadata, hm]
  | some sid =>
    have hany : ((meta.fragments.map Fragment.from_dict).any (fun f => f.id == sid))
        = false := by
      rw [List.any_eq_false]
      intro f hf
      obtain ⟨r, hr, hval⟩ := List.mem_map.mp hf
      have hidr : f.id = r.id := by rw [← hval]; rfl
      simp [hidr, hunk sid hm r hr]
    constructor <;> simp [FragmentManager.import_metadata, hm, hany]

/-- Witness for claim C10 (amended): the concrete import of record b
with unknown selected id "zzz" replaces the set with b and keeps the
pointer at "a". -/
theorem claim10_amended_witness :
    ((({ fragments := [{ id := "a", selected := true }], selected_fragment_id := some "a" }
        : FragmentManager).import_metadata
        { fragments := [{ id := "b", name := "", file_path := "", x := 0, y := 0,
                          rotation := 0, flip_horizontal := false, flip_vertical := false,
                          visible := true, opacity := 1 }],
          selected_fragment_id := some "zzz" }).fragments
      = ({ fragments := [{ id := "b", name := "", file_path := "", x := 0, y := 0,
                           rotation := 0, flip_horizontal := false, flip_vertical := false,
                           visible := true, opacity := 1 }],
           selected_fragment_id := some "zzz" } : Metadata).fragments.map Fragment.from_dict)
  ∧ ((({ fragments := [{ id := "a", selected := true }], selected_fragment_id := some "a" }
        : FragmentManager).import_metadata
        { fragments := [{ id := "b", name := "", file_path := "", x := 0, y := 0,
                          rotation := 0, flip_horizontal := false, flip_vertical := false,
                          visible := true, opacity := 1 }],
          selected_fragment_id := some "zzz" }).selected_fragment_id
      = ({ fragments := [{ id := "a", selected := true }], selected_fragment_id := some "a" }
        : FragmentManager).selected_fragment_id) :=
  claim10_amended
    ({ fragments := [{ id := "a", selected := true }], selected_fragment_id := some "a" }
      : FragmentManager)
    { fragments := [{ id := "b", name := "", file_path := "", x := 0, y := 0,
                      rotation := 0, flip_horizontal := false, flip_vertical := false,
                      visible := true, opacity := 1 }],
      selected_fragment_id := some "zzz" }
    (by intro sid hsid r hr
        have hsid2 : sid = "zzz" := (Option.some.inj hsid).symm
        subst hsid2
        have hrval := List.mem_singleton.mp hr
        rw [hrval]
        decide)

/-- Looking up a member id among the captured group-drag offsets yields
exactly the truncated difference between the press point and the
position of the fragment that `find?` resolves for that id. -/
theorem lookup_groupPressOffsets {group : List String} {fragments : List Fragment}
    {world : QPoint} {fid : String} {off : QPoint}
    (h : List.lookup fid (groupPressOffsets group fragments world) = some off) :
    ∃ f, fragments.find? (fun fr => fr.id == fid) = some f ∧
      off = ⟨pyTrunc ((world.x : ℚ) - f.x), pyTrunc ((world.y : ℚ) - f.y)⟩ := by
  induction group with
  | nil => simp [groupPressOffsets] at h
  | cons g gs ih =>
    rw [groupPressOffsets, List.filterMap_cons] at h
    cases hf : fragments.find? (fun fr => fr.id == g) with
    | none =>
      rw [hf] at h
      simp only [Option.map_none'] at h
      exact ih (by rw [groupPressOffsets]; exact h)
    | some f0 =>
      rw [hf] at h
      simp only [Option.map_some'] at h
      by_cases hg : g = fid
      · subst hg
        simp only [List.lookup, beq_self_eq_true] at h
        exact ⟨f0, hf, (Option.some.inj h).symm⟩
      · have hbeq : (fid == g) = false :=
          beq_eq_false_iff_ne.mpr (fun hh => hg hh.symm)
        simp only [List.lookup, hbeq] at h
        exact ih (by rw [groupPressOffsets]; exact h)

/-- Counterexample to claim C5: a group member at the fractional
position x = 1/2 pressed at world point (10, 0) gets the captured
offset 9 (not the exact difference 9.5, because the offset is truncated
into an integer `QPoint`); moving the cursor to (15, 0), a displacement
of (5, 0), emits new position (6, 0), so the member's end position
differs from its start by 5.5, not by the cursor displacement 5. -/
theorem claim5_counterexample :
    groupPressOffsets ["a"] [({ id := "a", x := 1/2 } : Fragment)] ⟨10, 0⟩
      = [("a", (⟨9, 0⟩ : QPoint))]
  ∧ ((9 : ℚ) ≠ (10 : ℚ) - ({ id := "a", x := 1/2 } : Fragment).x)
  ∧ groupMovePositions ["a"]
      (groupPressOffsets ["a"] [({ id := "a", x := 1/2 } : Fragment)] ⟨10, 0⟩) ⟨15, 0⟩
      = [("a", ((6 : ℚ), (0 : ℚ)))]
  ∧ ((6 : ℚ) - ({ id := "a", x := 1/2 } : Fragment).x ≠ (15 : ℚ) - 10) := by
  have hoff : groupPressOffsets ["a"] [({ id := "a", x := 1/2 } : Fragment)] ⟨10, 0⟩
      = [("a", (⟨9, 0⟩ : QPoint))] := by
    rw [groupPressOffsets, List.filterMap_cons]
    norm_num [List.find?, pyTrunc, QPoint.mk.injEq]
  refine ⟨hoff, by norm_num, ?_, by norm_num⟩
  rw [hoff, groupMovePositions, List.filterMap_cons]
  norm_num [List.lookup]

/-- Claim C5, amended: each captured offset is the integer truncation of
(press point minus member position), and each move emits
(cursor minus captured offset) as the member's new position; whenever
every member's position has integer coordinates, each emitted end
position differs from that member's start position by exactly the world
cursor displacement (so relative offsets are preserved — every member
translates by the same vector); for fractional positions the truncation
breaks exactness (see the counterexample). -/
theorem claim5_rigid_translation (fragments : List Fragment) (group : List String)
    (p0 p1 : QPoint)
    (hint : ∀ f ∈ fragments, (∃ a : ℤ, f.x = (a : ℚ)) ∧ (∃ b : ℤ, f.y = (b : ℚ)))
    (fid : String) (x y : ℚ)
    (hmem : (fid, x, y) ∈ groupMovePositions group (groupPressOffsets group fragments p0) p1) :
    ∃ f, fragments.find? (fun fr => fr.id == fid) = some f ∧ f ∈ fragments ∧
      x - f.x = ((p1.x - p0.x : ℤ) : ℚ) ∧ y - f.y = ((p1.y - p0.y : ℤ) : ℚ) := by
  rw [groupMovePositions] at hmem
  obtain ⟨gid, hgid, hval⟩ := List.mem_filterMap.mp hmem
  obtain ⟨off, hoff, hfn⟩ := Option.map_eq_some'.mp hval
  have hgidfid : gid = fid := congrArg Prod.fst hfn
  subst hgidfid
  have hx : ((p1.x - off.x : ℤ) : ℚ) = x := congrArg (fun t => t.2.1) hfn
  have hy : ((p1.y - off.y : ℤ) : ℚ) = y := congrArg (fun t => t.2.2) hfn
  obtain ⟨f, hfind, hoffval⟩ := lookup_groupPressOffsets hoff
  have hfmem : f ∈ fragments := List.mem_of_find?_eq_some hfind
  obtain ⟨⟨a, hax⟩, ⟨b, hby⟩⟩ := hint f hfmem
  have hoffx : off.x = p0.x - a := by
    rw [hoffval]
    show pyTrunc ((p0.x : ℚ) - f.x) = p0.x - a
    rw [hax, show ((p0.x : ℚ) - (a : ℚ)) = (((p0.x - a : ℤ)) : ℚ) by push_cast; ring,
      pyTrunc_intCast]
  have hoffy : off.y = p0.y - b := by
    rw [hoffval]
    show pyTrunc ((p0.y : ℚ) - f.y) = p0.y - b
    rw [hby, show ((p0.y : ℚ) - (b : ℚ)) = (((p0.y - b : ℤ)) : ℚ) by push_cast; ring,
      pyTrunc_intCast]
  refine ⟨f, hfind, hfmem, ?_, ?_⟩
  · rw [← hx, hax, hoffx]
    push_cast
    ring
  · rw [← hy, hby, hoffy]
    push_cast
    ring

/-- Witness for claim C5 (amended): the member at integer position
(2, 3) pressed at (10, 10) and dragged to (17, 14) ends displaced by
exactly the cursor displacement (7, 4). -/
theorem claim5_rigid_translation_witness :
    ∃ f, ([({ id := "a", x := 2, y := 3 } : Fragment)].find?
        (fun fr => fr.id == "a") = some f)
      ∧ f ∈ [({ id := "a", x := 2, y := 3 } : Fragment)]
      ∧ (9 : ℚ) - f.x = (((17 : ℤ) - (10 : ℤ) : ℤ) : ℚ)
      ∧ (7 : ℚ) - f.y = (((14 : ℤ) - (10 : ℤ) : ℤ) : ℚ) :=
  claim5_rigid_translation [({ id := "a", x := 2, y := 3 } : Fragment)] ["a"]
    ⟨10, 10⟩ ⟨17, 14⟩
    (by
      intro f hf
      have hfev := List.mem_singleton.mp hf
      rw [hfev]
      exact ⟨⟨2, by norm_num⟩, ⟨3, by norm_num⟩⟩)
    "a" 9 7
    (by
      have hoff : groupPressOffsets ["a"] [({ id := "a", x := 2, y := 3 } : Fragment)]
          ⟨10, 10⟩ = [("a", (⟨8, 7⟩ : QPoint))] := by
        rw [groupPressOffsets, List.filterMap_cons]
        norm_num [List.find?, pyTrunc, QPoint.mk.injEq]
      rw [hoff, groupMovePositions, List.filterMap_cons]
      norm_num [List.lookup])

/-- The degenerate corner-to-corner rectangle of a click-without-drag is
already normalized. -/
theorem normalized_point (p : QPoint) :
    (QRect.fromPoints p p).normalized = ⟨p.x, p.y, p.x, p.y⟩ := by
  unfold QRect.fromPoints QRect.normalized
  simp

/-- A corner-to-corner rectangle with both corners at the same point
(which Qt treats as a 1-by-1 pixel rectangle) intersects precisely the
rectangles that contain the point. -/
theorem intersects_point (p : QPoint) (r : QRect) :
    QRect.intersects ⟨p.x, p.y, p.x, p.y⟩ r = r.containsPt p := by
  have h1 : (QRect.mk p.x p.y p.x p.y).isNull = false := by
    simp only [QRect.isNull]
    simp
    omega
  have hxlo : (QRect.mk p.x p.y p.x p.y).xlo = p.x := by
    unfold QRect.xlo; split <;> rfl
  have hxhi : (QRect.mk p.x p.y p.x p.y).xhi = p.x := by
    unfold QRect.xhi; split <;> rfl
  have hylo : (QRect.mk p.x p.y p.x p.y).ylo = p.y := by
    unfold QRect.ylo; split <;> rfl
  have hyhi : (QRect.mk p.x p.y p.x p.y).yhi = p.y := by
    unfold QRect.yhi; split <;> rfl
  unfold QRect.intersects QRect.containsPt
  rw [h1, hxlo, hxhi, hylo, hyhi]
  by_cases hn : r.isNull
  · simp [hn]
  · simp only [hn, Bool.false_or, Bool.not_false, Bool.true_and, if_false]
    by_cases ha : r.xlo ≤ p.x <;> by_cases hb : p.x ≤ r.xhi <;>
      by_cases hc2 : r.ylo ≤ p.y <;> by_cases hd : p.y ≤ r.yhi <;>
      simp [ha, hb, hc2, hd] <;> try omega

/-- Counterexample to claim C6: finishing a rectangle selection whose
anchor and cursor coincide at (5, 5) — a zero-area rectangle — over one
visible fragment with bounding box (0, 0, 10, 10) returns that
fragment's id, not the empty set: Qt builds a 1-by-1 pixel rectangle
from coincident corners and no zero-area guard exists. -/
theorem claim6_counterexample :
    ((({ is_active := true, is_selecting := true, selection_start := ⟨5, 5⟩,
         selection_end := ⟨5, 5⟩, selected_fragment_ids := [] }
        : SelectionTool).finish_selection
        [{ id := "a", bbox_w := 10, bbox_h := 10 }]).2 = ["a"])
  ∧ (["a"] ≠ ([] : List String)) := by
  constructor
  · norm_num [SelectionTool.finish_selection, QRect.fromPoints, QRect.normalized,
      QRect.intersects, QRect.isNull, QRect.xlo, QRect.xhi, QRect.ylo, QRect.yhi,
      fragmentQRect, QRect.fromXYWH, Fragment.get_bounding_box, pyTrunc, List.filter]
  · simp

/-- Claim C6, amended: with Qt's integer-rectangle semantics a selection
whose anchor equals its cursor denotes a 1-by-1 pixel rectangle, not an
empty one; finishing it returns exactly the ids of the visible fragments
whose integer bounding rectangle contains that pixel — the match set is
empty only when no visible fragment's bounds cover the anchor point. -/
theorem claim6_point_selection (t : SelectionTool) (fragments : List Fragment)
    (p : QPoint) (hsel : t.is_selecting = true)
    (hs : t.selection_start = p) (he : t.selection_end = p) :
    (t.finish_selection fragments).2
      = (fragments.filter (fun f => f.visible && (fragmentQRect f).containsPt p)).map
          Fragment.id := by
  unfold SelectionTool.finish_selection
  rw [hsel, hs, he]
  simp only [Bool.not_true, Bool.false_eq_true, if_false]
  rw [normalized_point p]
  congr 1
  apply List.filter_congr
  intro f _
  rw [intersects_point]

/-- Witness for claim C6 (amended): the concrete click-without-drag at
(5, 5) over the fragment with bounds (0, 0, 10, 10) selects exactly the
fragments whose integer bounds contain (5, 5). -/
theorem claim6_point_selection_witness :
    ((({ is_active := true, is_selecting := true, selection_start := ⟨5, 5⟩,
         selection_end := ⟨5, 5⟩, selected_fragment_ids := [] }
        : SelectionTool).finish_selection
        [{ id := "a", bbox_w := 10, bbox_h := 10 }]).2
      = ([{ id := "a", bbox_w := 10, bbox_h := 10 }].filter
          (fun f => f.visible && (fragmentQRect f).containsPt ⟨5, 5⟩)).map Fragment.id) :=
  claim6_point_selection
    ({ is_active := true, is_selecting := true, selection_start := ⟨5, 5⟩,
       selection_end := ⟨5, 5⟩, selected_fragment_ids := [] } : SelectionTool)
    [{ id := "a", bbox_w := 10, bbox_h := 10 }] ⟨5, 5⟩ rfl rfl rfl

end V2
